import Mathlib

/-!
# Wallet ledger: shallow embedding and verification

This file embeds the core of the wallet-ledger service in Lean 4 and proves
the specification claims about it.

The embedding follows the source:

* `sql/init.sql` — the `users` and `transactions` tables with their CHECK
  constraints, and the stored procedure `process_transaction` (the atomic
  Transaction Engine).
* `src/services/walletService.ts` — `WalletService.validateAmount`,
  `creditUser`, `debitUser`, `processWager`, `processPayout`.
* `src/services/userService.ts` — `UserService.validateUserExists`.
* `src/repositories/transactionRepository.ts` —
  `TransactionRepository.createTransaction` (error mapping) and the
  `ORDER BY` clause built by `getTransactions`.

Monetary values are `DECIMAL(15, 2)` in the database and JS numbers in the
service; both are modelled as exact rationals (`ℚ`).  The cast of a parameter
to `DECIMAL(15, 2)` rounds to two fractional digits, half away from zero;
this is modelled explicitly by `dbRound2`.  The database state is a pair of
tables; a PL/pgSQL exception aborts the surrounding transaction, so a failing
call is modelled as returning an error and no new state (rollback).
-/

namespace Wallet

/-- The `transaction_type` enum of `init.sql` (line 26), in declaration
order `credit, debit, wager, payout, bonus, refund`. -/
inductive TxType
  | credit
  | debit
  | wager
  | payout
  | bonus
  | refund
deriving DecidableEq, Repr

/-- Membership in `('credit', 'payout', 'bonus', 'refund')`: the types whose
`process_transaction` branch adds the amount to the balance. -/
def TxType.isCreditClass : TxType → Bool
  | .credit | .payout | .bonus | .refund => true
  | .debit | .wager => false

/-- Membership in `('debit', 'wager')`: the types whose `process_transaction`
branch subtracts the amount from the balance. -/
def TxType.isDebitClass : TxType → Bool
  | .debit | .wager => true
  | .credit | .payout | .bonus | .refund => false

/-- Position of a value inside the `transaction_type` enum; PostgreSQL sorts
an enum column by this declaration order. -/
def TxType.enumIndex : TxType → ℕ
  | .credit => 0
  | .debit => 1
  | .wager => 2
  | .payout => 3
  | .bonus => 4
  | .refund => 5

/-- The `status` column of the `users` table:
`CHECK (status IN ('active', 'suspended', 'inactive'))`. -/
inductive UserStatus
  | active
  | suspended
  | inactive
deriving DecidableEq, Repr

/-- A row of the `users` table (`init.sql` lines 8–22), restricted to the
columns the Transaction Engine and the Ledger Service read or write. -/
structure UserRow where
  id : String
  balance : ℚ
  status : UserStatus
deriving DecidableEq, Repr

/-- A row of the `transactions` table (`init.sql` lines 32–51).  `id` models
the generated UUID primary key (drawn from a per-state counter) and
`processedAt` the `processed_at` timestamp; `metadata` is the opaque JSONB
payload, serialized. -/
structure TxRow where
  id : ℕ
  userId : String
  transactionId : String
  type : TxType
  amount : ℚ
  balanceBefore : ℚ
  balanceAfter : ℚ
  description : Option String
  metadata : Option String
  processedAt : ℕ
deriving DecidableEq, Repr

/-- The CHECK constraints of the `transactions` table: `amount > 0`,
`balance_before >= 0`, `balance_after >= 0`, and the
`transaction_balance_consistency` constraint (`init.sql` lines 37–51). -/
def TxRow.satisfiesChecks (t : TxRow) : Bool :=
  decide (0 < t.amount) &&
  decide (0 ≤ t.balanceBefore) &&
  decide (0 ≤ t.balanceAfter) &&
  ((t.type.isCreditClass && decide (t.balanceAfter = t.balanceBefore + t.amount)) ||
   (t.type.isDebitClass && decide (t.balanceAfter = t.balanceBefore - t.amount)))

/-- The database state: the `users` table and the append-only `transactions`
table.  `nextId` is the source of fresh `transactions.id` values and `clock`
the current `processed_at` timestamp. -/
structure DbState where
  users : List UserRow
  transactions : List TxRow
  nextId : ℕ
  clock : ℕ
deriving DecidableEq, Repr

/-- `SELECT ... FROM users WHERE id = $1`; `id` is the primary key, so the
first match is the row. -/
def DbState.findUser (st : DbState) (uid : String) : Option UserRow :=
  st.users.find? (fun u => u.id == uid)

/-- `SELECT ... FROM transactions WHERE transaction_id = $1`; the column is
UNIQUE, so the first match is the row. -/
def DbState.findTx (st : DbState) (txid : String) : Option TxRow :=
  st.transactions.find? (fun t => t.transactionId == txid)

/-- The cast of a numeric parameter to `DECIMAL(15, 2)`: PostgreSQL rounds
to 2 fractional digits, half away from zero. -/
def dbRound2 (q : ℚ) : ℚ :=
  ((if 0 ≤ q then ⌊q * 100 + 1 / 2⌋ else -⌊-(q * 100) + 1 / 2⌋ : ℤ) : ℚ) / 100

/-- The PL/pgSQL exceptions `process_transaction` can raise, plus the SQL
error classes the repository distinguishes: `23505` (unique violation on
`transaction_id`) and CHECK-constraint violations.  Raising any of them
aborts the whole unit of work (rollback). -/
inductive DbError
  | userNotFound
  | insufficientFunds
  | uniqueViolation
  | checkViolation
deriving DecidableEq, Repr

/-- The row assembled by the `INSERT INTO transactions` statement of
`process_transaction`: the generated id, the caller's columns, and the
`processed_at` default. -/
def mkTxRow (st : DbState) (uid txid : String) (ty : TxType)
    (amount before after : ℚ) (descr meta : Option String) : TxRow :=
  { id := st.nextId, userId := uid, transactionId := txid, type := ty,
    amount := amount, balanceBefore := before, balanceAfter := after,
    description := descr, metadata := meta, processedAt := st.clock }

/-- The `INSERT INTO transactions ... RETURNING *` followed by
`UPDATE users SET balance = new_balance` inside `process_transaction`
(`init.sql` lines 119–131).  The INSERT raises `23505` when the idempotency
key already exists (UNIQUE constraint) and a check violation when a CHECK
constraint fails; the UPDATE re-checks `users_balance_non_negative`. -/
def insertTx (st : DbState) (uid txid : String) (ty : TxType)
    (amount before after : ℚ) (descr meta : Option String) :
    Except DbError (DbState × TxRow) :=
  if (st.findTx txid).isSome then .error .uniqueViolation
  else if (mkTxRow st uid txid ty amount before after descr meta).satisfiesChecks
      && decide (0 ≤ after) then
    .ok ({ st with
            users := st.users.map fun v =>
              if v.id == uid then { v with balance := after } else v,
            transactions :=
              mkTxRow st uid txid ty amount before after descr meta ::
                st.transactions,
            nextId := st.nextId + 1 },
      mkTxRow st uid txid ty amount before after descr meta)
  else .error .checkViolation

/-- The stored procedure `process_transaction` (`init.sql` lines 83–135):
lock and read the user's balance (`FOR UPDATE`), compute the new balance by
type class, reject an insolvent debit, append the transaction row and write
back the balance — one atomic unit of work.  The `p_amount` parameter is
declared `DECIMAL(15, 2)`, so the incoming value is rounded on entry. -/
def process_transaction (st : DbState) (p_user_id p_transaction_id : String)
    (p_type : TxType) (p_amount : ℚ) (p_description p_metadata : Option String) :
    Except DbError (DbState × TxRow) :=
  match st.findUser p_user_id with
  | none => .error .userNotFound
  | some u =>
      if p_type.isCreditClass then
        insertTx st p_user_id p_transaction_id p_type (dbRound2 p_amount)
          u.balance (u.balance + dbRound2 p_amount) p_description p_metadata
      else
        if u.balance - dbRound2 p_amount < 0 then .error .insufficientFunds
        else
          insertTx st p_user_id p_transaction_id p_type (dbRound2 p_amount)
            u.balance (u.balance - dbRound2 p_amount) p_description p_metadata

/-- The errors the service layer can surface, one constructor per distinct
`throw new Error(...)` site reachable from the wallet operations, plus
`databaseError` for any other database error rethrown unmapped by
`TransactionRepository.createTransaction`. -/
inductive WalletError
  | userNotFound
  | userNotActive (s : UserStatus)
  | amountNotPositive
  | amountTooManyDecimals
  | insufficientFunds
  | duplicateTransactionId
  | txIdDifferentUser
  | txIdDifferentType
  | databaseError
deriving DecidableEq, Repr

/-- The spec's `InvalidAmount` kind covers both messages thrown by
`WalletService.validateAmount`. -/
def WalletError.isInvalidAmount : WalletError → Bool
  | .amountNotPositive | .amountTooManyDecimals => true
  | _ => false

/-- The spec's `IdempotencyKeyConflict` kind covers both conflict messages
thrown on the idempotency pre-check of `creditUser` / `debitUser`. -/
def WalletError.isIdempotencyKeyConflict : WalletError → Bool
  | .txIdDifferentUser | .txIdDifferentType => true
  | _ => false

/-- The argument record of `TransactionRepository.createTransaction`
(`CreateTransactionRequest` in `types.ts`). -/
structure CreateTransactionRequest where
  userId : String
  transactionId : String
  type : TxType
  amount : ℚ
  description : Option String
  metadata : Option String
deriving DecidableEq, Repr

/-- `TransactionRepository.createTransaction`: runs
`SELECT * FROM process_transaction($1, ..., $6)` and maps the raised errors —
message `User not found` and `Insufficient funds` pass through by name,
SQL state `23505` becomes `Transaction ID already exists`, anything else is
rethrown unchanged. -/
def TransactionRepository.createTransaction (st : DbState)
    (d : CreateTransactionRequest) : Except WalletError (DbState × TxRow) :=
  match process_transaction st d.userId d.transactionId d.type d.amount
      d.description d.metadata with
  | .ok r => .ok r
  | .error .userNotFound => .error .userNotFound
  | .error .insufficientFunds => .error .insufficientFunds
  | .error .uniqueViolation => .error .duplicateTransactionId
  | .error .checkViolation => .error .databaseError

/-- `UserService.validateUserExists`: looks the user up by id, throws
`User not found` when absent and `User account is <status>` when the status
is not `active`. -/
def UserService.validateUserExists (st : DbState) (uid : String) :
    Except WalletError Unit :=
  match st.findUser uid with
  | none => .error .userNotFound
  | some u =>
      if u.status ≠ .active then .error (.userNotActive u.status)
      else .ok ()

/-- The JS test `(amount.toString().split('.')[1] || '').length > 2` counts
the fractional digits of the decimal rendering; for an exact decimal value
it holds at most 2 fractional digits iff `amount * 100` is an integer. -/
def hasAtMost2Decimals (q : ℚ) : Bool := (q * 100).den == 1

/-- `WalletService.validateAmount`: rejects `amount <= 0` with
`Amount must be positive` and more than two decimal places with
`Amount must have at most 2 decimal places`. -/
def WalletService.validateAmount (amount : ℚ) : Except WalletError Unit :=
  if amount ≤ 0 then .error .amountNotPositive
  else if !hasAtMost2Decimals amount then .error .amountTooManyDecimals
  else .ok ()

/-- The body of a credit or debit request (`CreditRequest` / `DebitRequest`
in `types.ts`: both carry `transactionId`, `amount`, and the optional
`description` and `metadata`). -/
structure OpRequest where
  transactionId : String
  amount : ℚ
  description : Option String
  metadata : Option String
deriving DecidableEq, Repr

/-- `WalletService.creditUser`: idempotency pre-check first (return the
stored entry when the key is known, conflict when it belongs to another
user or another type), then `validateUserExists`, then `validateAmount`,
then `createTransaction` with type `credit`. -/
def WalletService.creditUser (st : DbState) (userId : String)
    (request : OpRequest) : Except WalletError (DbState × TxRow) :=
  match st.findTx request.transactionId with
  | some existing =>
      if existing.userId ≠ userId then .error .txIdDifferentUser
      else if existing.type ≠ .credit then .error .txIdDifferentType
      else .ok (st, existing)
  | none =>
      match UserService.validateUserExists st userId with
      | .error e => .error e
      | .ok _ =>
          match WalletService.validateAmount request.amount with
          | .error e => .error e
          | .ok _ =>
              TransactionRepository.createTransaction st
                { userId := userId, transactionId := request.transactionId,
                  type := .credit, amount := request.amount,
                  description := request.description,
                  metadata := request.metadata }

/-- `WalletService.debitUser`: same shape as `creditUser` with type
`debit`. -/
def WalletService.debitUser (st : DbState) (userId : String)
    (request : OpRequest) : Except WalletError (DbState × TxRow) :=
  match st.findTx request.transactionId with
  | some existing =>
      if existing.userId ≠ userId then .error .txIdDifferentUser
      else if existing.type ≠ .debit then .error .txIdDifferentType
      else .ok (st, existing)
  | none =>
      match UserService.validateUserExists st userId with
      | .error e => .error e
      | .ok _ =>
          match WalletService.validateAmount request.amount with
          | .error e => .error e
          | .ok _ =>
              TransactionRepository.createTransaction st
                { userId := userId, transactionId := request.transactionId,
                  type := .debit, amount := request.amount,
                  description := request.description,
                  metadata := request.metadata }

/-- The description string `processWager` builds from the optional game
id. -/
def wagerDescription (gameId : Option String) : String :=
  match gameId with
  | some g => "Wager for game " ++ g
  | none => "Game wager"

/-- The description string `processPayout` builds from the optional game
id. -/
def payoutDescription (gameId : Option String) : String :=
  match gameId with
  | some g => "Payout for game " ++ g
  | none => "Game payout"

/-- `WalletService.processWager`: the transaction id is generated internally
(`wager_<uuid>_<now>`), passed here as the `txid` argument; there is no
idempotency pre-check and no `validateAmount` call — only
`validateUserExists` before `createTransaction` with type `wager`. -/
def WalletService.processWager (st : DbState) (userId txid : String)
    (amount : ℚ) (gameId : Option String) (metadata : Option String) :
    Except WalletError (DbState × TxRow) :=
  match UserService.validateUserExists st userId with
  | .error e => .error e
  | .ok _ =>
      TransactionRepository.createTransaction st
        { userId := userId, transactionId := txid, type := .wager,
          amount := amount,
          description := some (wagerDescription gameId),
          metadata := metadata }

/-- `WalletService.processPayout`: symmetric to `processWager`, type
`payout`, again with no `validateAmount` call. -/
def WalletService.processPayout (st : DbState) (userId txid : String)
    (amount : ℚ) (gameId : Option String) (metadata : Option String) :
    Except WalletError (DbState × TxRow) :=
  match UserService.validateUserExists st userId with
  | .error e => .error e
  | .ok _ =>
      TransactionRepository.createTransaction st
        { userId := userId, transactionId := txid, type := .payout,
          amount := amount,
          description := some (payoutDescription gameId),
          metadata := metadata }

/-- One invocation of an exposed wallet operation. -/
inductive Op
  | credit (userId : String) (request : OpRequest)
  | debit (userId : String) (request : OpRequest)
  | wager (userId txid : String) (amount : ℚ) (gameId meta : Option String)
  | payout (userId txid : String) (amount : ℚ) (gameId meta : Option String)
deriving DecidableEq, Repr

/-- Dispatch of an operation to the service function implementing it. -/
def runOp (st : DbState) : Op → Except WalletError (DbState × TxRow)
  | .credit u r => WalletService.creditUser st u r
  | .debit u r => WalletService.debitUser st u r
  | .wager u i a g m => WalletService.processWager st u i a g m
  | .payout u i a g m => WalletService.processPayout st u i a g m

/-- The database state a call leaves behind: its new state on success, the
old state on failure — every error aborts the unit of work, so nothing is
written (rollback). -/
def stepState {ε : Type} (st : DbState) (r : Except ε (DbState × TxRow)) :
    DbState :=
  match r with
  | .ok (st', _) => st'
  | .error _ => st

/-- The camelCase→snake_case conversion applied to the requested sort key:
`sortBy.replace(/([A-Z])/g, '_$1').toLowerCase()`. -/
def toSnakeCase (s : String) : String :=
  String.mk (s.data.foldr
    (fun c acc => if c.isUpper then '_' :: c.toLower :: acc else c :: acc) [])

/-- The JS `sortOrder.toUpperCase()`: upper-case every character. -/
def strToUpper (s : String) : String :=
  String.mk (s.data.map Char.toUpper)

/-- The `ORDER BY` clause built by `TransactionRepository.getTransactions`
(line 136: `ORDER BY ${dbSortBy} ${sortOrder.toUpperCase()}`): a single
(column, direction) sort key. -/
def getTransactionsOrderBy (sortBy sortOrder : String) :
    List (String × String) :=
  [(toSnakeCase sortBy, strToUpper sortOrder)]

/-- The value a sortable column takes on a transaction row, injected into
`ℚ` so all columns compare uniformly.  The route schema restricts `sortBy`
to `processedAt`, `amount` and `type`; an enum column sorts by declaration
order. -/
def sortKeyValue (col : String) (t : TxRow) : ℚ :=
  if col == "processed_at" then (t.processedAt : ℚ)
  else if col == "amount" then t.amount
  else if col == "type" then (t.type.enumIndex : ℚ)
  else if col == "id" then (t.id : ℚ)
  else 0

/-- Whether an adjacent pair of result rows is permitted by an `ORDER BY`
clause: lexicographic by the listed keys; rows tied on every key may appear
in either order (SQL leaves their relative order unspecified). -/
def rowPairOrdered (clause : List (String × String)) (a b : TxRow) : Bool :=
  match clause with
  | [] => true
  | (col, ord) :: rest =>
      if sortKeyValue col a = sortKeyValue col b then rowPairOrdered rest a b
      else if ord == "DESC" then decide (sortKeyValue col b < sortKeyValue col a)
      else decide (sortKeyValue col a < sortKeyValue col b)

/-- A result sequence the database may return for a query with the given
`ORDER BY` clause: every adjacent pair is permitted by the clause. -/
def satisfiesOrderBy (clause : List (String × String)) (l : List TxRow) :
    Prop :=
  l.Chain' (fun a b => rowPairOrdered clause a b = true)

instance (clause : List (String × String)) (l : List TxRow) :
    Decidable (satisfiesOrderBy clause l) := by
  unfold satisfiesOrderBy; infer_instance

/- ### Helper lemmas -/

/-- A value with at most two fractional digits is a `DECIMAL(15, 2)` fixed
point: the parameter cast does not change it. -/
theorem dbRound2_eq_self {q : ℚ} (h : hasAtMost2Decimals q = true) :
    dbRound2 q = q := by
  have hden : (q * 100).den = 1 := by
    simpa [hasAtMost2Decimals] using h
  have hk : (((q * 100).num : ℚ)) = q * 100 := (Rat.den_eq_one_iff _).mp hden
  have hhalf : ⌊(1 / 2 : ℚ)⌋ = 0 := by
    rw [Int.floor_eq_zero_iff]
    constructor <;> norm_num
  by_cases hq : 0 ≤ q
  · have hfl : ⌊q * 100 + 1 / 2⌋ = (q * 100).num := by
      conv_lhs => rw [← hk]
      rw [Int.floor_int_add, hhalf, add_zero]
    rw [dbRound2, if_pos hq, hfl]
    rw [div_eq_iff (by norm_num : (100 : ℚ) ≠ 0)]
    exact hk
  · have hneg : -(q * 100) = ((-(q * 100).num : ℤ) : ℚ) := by
      push_cast
      rw [hk]
    have hfl : ⌊-(q * 100) + 1 / 2⌋ = -(q * 100).num := by
      rw [hneg, Int.floor_int_add, hhalf, add_zero]
    rw [dbRound2, if_neg hq, hfl]
    rw [div_eq_iff (by norm_num : (100 : ℚ) ≠ 0)]
    push_cast
    rw [hk]
    ring

/-- Looking a user up after the balance write-back of `insertTx`: the same
row is found, with the new balance. -/
theorem find?_map_update (users : List UserRow) (uid : String) (nb : ℚ) :
    (users.map fun v =>
        if v.id == uid then { v with balance := nb } else v).find?
        (fun u => u.id == uid) =
      (users.find? (fun u => u.id == uid)).map
        fun u => { u with balance := nb } := by
  induction users with
  | nil => rfl
  | cons v vs ih =>
      by_cases hc : v.id = uid
      · have hb : (v.id == uid) = true := beq_iff_eq.mpr hc
        simp [List.find?_cons, hc, hb, ih, -List.find?_map]
      · have hb : (v.id == uid) = false := beq_eq_false_iff_ne.mpr hc
        simpa [List.find?_cons, hc, hb, -List.find?_map] using ih

/-- Every transaction type is in exactly one of the two classes. -/
theorem isDebitClass_eq_not_isCreditClass (ty : TxType) :
    ty.isDebitClass = !ty.isCreditClass := by
  cases ty <;> rfl

/-- A row passing the `transactions` CHECK constraints has a positive
amount and non-negative balances. -/
theorem satisfiesChecks_elim {t : TxRow} (h : t.satisfiesChecks = true) :
    0 < t.amount ∧ 0 ≤ t.balanceBefore ∧ 0 ≤ t.balanceAfter := by
  refine ⟨?_, ?_, ?_⟩ <;>
    · by_contra hc
      unfold TxRow.satisfiesChecks at h
      rw [decide_eq_false hc] at h
      simp at h

/-- What a successful `insertTx` produced and which constraints it
checked. -/
theorem insertTx_ok_elim {st : DbState} {uid txid : String} {ty : TxType}
    {amount before after : ℚ} {descr meta : Option String}
    {st' : DbState} {t : TxRow}
    (h : insertTx st uid txid ty amount before after descr meta =
      .ok (st', t)) :
    t = mkTxRow st uid txid ty amount before after descr meta ∧
    st' = { st with
            users := st.users.map fun v =>
              if v.id == uid then { v with balance := after } else v,
            transactions := t :: st.transactions,
            nextId := st.nextId + 1 } ∧
    st.findTx txid = none ∧
    0 < amount ∧ 0 ≤ before ∧ 0 ≤ after := by
  unfold insertTx at h
  split at h
  · exact absurd h (by simp)
  · split at h
    · rename_i hfresh hchecks
      have hfresh' : st.findTx txid = none := by
        cases hx : st.findTx txid
        · rfl
        · exact absurd (by simp [hx]) hfresh
      rw [Bool.and_eq_true] at hchecks
      obtain ⟨hsc, hafterb⟩ := hchecks
      have hafter : 0 ≤ after := of_decide_eq_true hafterb
      obtain ⟨hamt, hbefore, -⟩ := satisfiesChecks_elim hsc
      simp only [mkTxRow] at hamt hbefore
      simp only [Except.ok.injEq, Prod.mk.injEq] at h
      obtain ⟨hst, ht⟩ := h
      subst hst
      subst ht
      exact ⟨rfl, rfl, hfresh', hamt, hbefore, hafter⟩
    · exact absurd h (by simp)

/-- What a successful `process_transaction` guarantees: the entry records
the locked balance as `balance_before`, the balance computed by type class
as `balance_after`, and the state gets the entry appended and the balance
written back atomically. -/
theorem process_transaction_ok_elim {st : DbState} {uid k : String}
    {ty : TxType} {amt : ℚ} {d m : Option String} {st' : DbState}
    {rec : TxRow}
    (h : process_transaction st uid k ty amt d m = .ok (st', rec)) :
    ∃ u, st.findUser uid = some u ∧
      rec = mkTxRow st uid k ty (dbRound2 amt) u.balance
        (if ty.isCreditClass then u.balance + dbRound2 amt
         else u.balance - dbRound2 amt) d m ∧
      st' = { st with
              users := st.users.map fun v =>
                if v.id == uid then { v with balance := rec.balanceAfter }
                else v,
              transactions := rec :: st.transactions,
              nextId := st.nextId + 1 } ∧
      st.findTx k = none ∧
      0 < dbRound2 amt ∧ 0 ≤ u.balance ∧ 0 ≤ rec.balanceAfter := by
  unfold process_transaction at h
  cases hu : st.findUser uid with
  | none => rw [hu] at h; exact absurd h (by simp)
  | some u =>
      rw [hu] at h
      refine ⟨u, rfl, ?_⟩
      simp only at h
      split at h
      · rename_i hclass
        obtain ⟨ht, hst, hfresh, hamt, hb, ha⟩ := insertTx_ok_elim h
        subst ht
        refine ⟨by rw [if_pos hclass], hst, hfresh, hamt, hb, ha⟩
      · split at h
        · exact absurd h (by simp)
        · rename_i hclass hsolvent
          obtain ⟨ht, hst, hfresh, hamt, hb, ha⟩ := insertTx_ok_elim h
          subst ht
          refine ⟨by rw [if_neg hclass], hst, hfresh, hamt, hb, ha⟩

/-- Balance lookup in the state left by a successful `process_transaction`:
the written-back balance. -/
theorem findUser_after_ok {st : DbState} {uid k : String} {ty : TxType}
    {amt : ℚ} {d m : Option String} {st' : DbState} {rec : TxRow}
    (h : process_transaction st uid k ty amt d m = .ok (st', rec)) :
    (st'.findUser uid).map UserRow.balance = some rec.balanceAfter := by
  obtain ⟨u, hu, -, hst, -⟩ := process_transaction_ok_elim h
  subst hst
  unfold DbState.findUser at hu ⊢
  rw [find?_map_update, hu]
  rfl

/-- A row whose fields satisfy the CHECK constraints passes
`satisfiesChecks`. -/
theorem satisfiesChecks_intro {t : TxRow} (h1 : 0 < t.amount)
    (h2 : 0 ≤ t.balanceBefore) (h3 : 0 ≤ t.balanceAfter)
    (h4 : (t.type.isCreditClass = true ∧
            t.balanceAfter = t.balanceBefore + t.amount) ∨
          (t.type.isDebitClass = true ∧
            t.balanceAfter = t.balanceBefore - t.amount)) :
    t.satisfiesChecks = true := by
  unfold TxRow.satisfiesChecks
  rw [decide_eq_true h1, decide_eq_true h2, decide_eq_true h3]
  simp only [Bool.true_and]
  rcases h4 with ⟨hc, he⟩ | ⟨hd, he⟩
  · rw [hc, decide_eq_true he]
    simp
  · rw [hd, decide_eq_true he]
    simp

/-- A constraint-respecting insert succeeds. -/
theorem insertTx_ok_intro {st : DbState} {uid txid : String} {ty : TxType}
    {amount before after : ℚ} {descr meta : Option String}
    (hfresh : st.findTx txid = none) (hamt : 0 < amount) (hb : 0 ≤ before)
    (ha : 0 ≤ after)
    (hcons : (ty.isCreditClass = true ∧ after = before + amount) ∨
             (ty.isDebitClass = true ∧ after = before - amount)) :
    insertTx st uid txid ty amount before after descr meta =
      .ok ({ st with
              users := st.users.map fun v =>
                if v.id == uid then { v with balance := after } else v,
              transactions :=
                mkTxRow st uid txid ty amount before after descr meta ::
                  st.transactions,
              nextId := st.nextId + 1 },
        mkTxRow st uid txid ty amount before after descr meta) := by
  unfold insertTx
  rw [hfresh]
  rw [if_neg (by simp)]
  rw [if_pos]
  rw [Bool.and_eq_true]
  exact ⟨satisfiesChecks_intro hamt hb ha hcons, decide_eq_true ha⟩

/-- `insertTx` never raises the insufficient-funds error: that check
happens before the insert. -/
theorem insertTx_ne_insufficientFunds {st : DbState} {uid txid : String}
    {ty : TxType} {amount before after : ℚ} {descr meta : Option String} :
    insertTx st uid txid ty amount before after descr meta ≠
      .error .insufficientFunds := by
  unfold insertTx
  split
  · simp
  · split
    · simp
    · simp

/- ### Claims -/

/-- A concrete one-user database: user `u1`, status `active`, balance `b`,
no transactions yet. -/
def exActive (b : ℚ) : DbState :=
  { users := [{ id := "u1", balance := b, status := .active }],
    transactions := [], nextId := 0, clock := 0 }

/-- Two-decimal values are closed under addition. -/
theorem hasAtMost2Decimals_add {a b : ℚ} (ha : hasAtMost2Decimals a = true)
    (hb : hasAtMost2Decimals b = true) :
    hasAtMost2Decimals (a + b) = true := by
  unfold hasAtMost2Decimals at ha hb ⊢
  rw [beq_iff_eq] at ha hb ⊢
  have h1 : ((a * 100).num : ℚ) = a * 100 := (Rat.den_eq_one_iff _).mp ha
  have h2 : ((b * 100).num : ℚ) = b * 100 := (Rat.den_eq_one_iff _).mp hb
  have hsum : (a + b) * 100 = (((a * 100).num + (b * 100).num : ℤ) : ℚ) := by
    push_cast
    rw [h1, h2]
    ring
  rw [hsum]
  exact Rat.den_intCast _

/-- C1: every successful `process_transaction` call on an existing account
returns a `LedgerEntry` whose `balance_before` is the account balance read
under the row lock, whose `balance_after` is `balance_before + amount` for
credit-class types and `balance_before - amount` for debit-class types, and
leaves the account's stored balance equal to `balance_after`. -/
theorem process_transaction_balance_bookkeeping {st : DbState}
    {uid k : String} {ty : TxType} {amt : ℚ} {d m : Option String}
    {st' : DbState} {rec : TxRow}
    (h : process_transaction st uid k ty amt d m = .ok (st', rec)) :
    (st.findUser uid).map UserRow.balance = some rec.balanceBefore ∧
    (ty.isCreditClass = true →
      rec.balanceAfter = rec.balanceBefore + rec.amount) ∧
    (ty.isDebitClass = true →
      rec.balanceAfter = rec.balanceBefore - rec.amount) ∧
    (st'.findUser uid).map UserRow.balance = some rec.balanceAfter := by
  obtain ⟨u, hu, hrec, -, -⟩ := process_transaction_ok_elim h
  refine ⟨?_, ?_, ?_, findUser_after_ok h⟩
  · rw [hu]
    subst hrec
    rfl
  · intro hc
    subst hrec
    simp [mkTxRow, hc]
  · intro hdeb
    have hc : ty.isCreditClass = false := by
      rw [isDebitClass_eq_not_isCreditClass] at hdeb
      simpa using hdeb
    subst hrec
    simp [mkTxRow, hc]

/-- Witness for C1: Scenario A — credit of 100.50 on balance 0 records
`before = 0`, `after = 100.50`, and stores balance 100.50. -/
theorem process_transaction_balance_bookkeeping_witness :
    process_transaction (exActive 0) "u1" "k1" .credit (201 / 2) none none =
      .ok ({ users := [{ id := "u1", balance := 201 / 2, status := .active }],
             transactions :=
               [{ id := 0, userId := "u1", transactionId := "k1",
                  type := .credit, amount := 201 / 2, balanceBefore := 0,
                  balanceAfter := 201 / 2, description := none,
                  metadata := none, processedAt := 0 }],
             nextId := 1, clock := 0 },
        { id := 0, userId := "u1", transactionId := "k1", type := .credit,
          amount := 201 / 2, balanceBefore := 0, balanceAfter := 201 / 2,
          description := none, metadata := none, processedAt := 0 }) ∧
    (((exActive 0).findUser "u1").map UserRow.balance = some 0 ∧
      (TxType.credit.isCreditClass = true → (201 / 2 : ℚ) = 0 + 201 / 2) ∧
      (TxType.credit.isDebitClass = true → (201 / 2 : ℚ) = 0 - 201 / 2) ∧
      ((({ users := [{ id := "u1", balance := 201 / 2, status := .active }],
           transactions :=
             [{ id := 0, userId := "u1", transactionId := "k1",
                type := .credit, amount := 201 / 2, balanceBefore := 0,
                balanceAfter := 201 / 2, description := none,
                metadata := none, processedAt := 0 }],
           nextId := 1, clock := 0 } : DbState).findUser "u1").map
          UserRow.balance = some (201 / 2))) :=
  have h : process_transaction (exActive 0) "u1" "k1" .credit (201 / 2)
      none none =
      .ok ({ users := [{ id := "u1", balance := 201 / 2, status := .active }],
             transactions :=
               [{ id := 0, userId := "u1", transactionId := "k1",
                  type := .credit, amount := 201 / 2, balanceBefore := 0,
                  balanceAfter := 201 / 2, description := none,
                  metadata := none, processedAt := 0 }],
             nextId := 1, clock := 0 },
        { id := 0, userId := "u1", transactionId := "k1", type := .credit,
          amount := 201 / 2, balanceBefore := 0, balanceAfter := 201 / 2,
          description := none, metadata := none, processedAt := 0 }) := by
    simp only [process_transaction, exActive, DbState.findUser,
      DbState.findTx, insertTx, mkTxRow, TxRow.satisfiesChecks,
      TxType.isCreditClass]
    norm_num [dbRound2, List.find?]
  ⟨h, process_transaction_balance_bookkeeping h⟩

/-- C2: a debit-class `process_transaction` on an existing account fails
with `InsufficientFunds` exactly when `balance - amount < 0`; any failure
leaves the state untouched (no entry, balance unchanged); a debit of the
whole (positive) balance under a fresh key succeeds and leaves balance 0;
a debit of `balance + 0.01` fails with `InsufficientFunds`. -/
theorem debit_insufficientFunds_iff_boundary {st : DbState}
    {uid k : String} {ty : TxType} {amt : ℚ} {d m : Option String}
    {u : UserRow} (hu : st.findUser uid = some u)
    (hdeb : ty.isDebitClass = true) :
    (dbRound2 amt = amt →
      (process_transaction st uid k ty amt d m =
          .error .insufficientFunds ↔ u.balance - amt < 0)) ∧
    (∀ e, process_transaction st uid k ty amt d m = .error e →
      stepState st (process_transaction st uid k ty amt d m) = st) ∧
    (hasAtMost2Decimals u.balance = true → 0 < u.balance →
      st.findTx k = none →
      ∃ st' rec, process_transaction st uid k ty u.balance d m =
          .ok (st', rec) ∧
        rec.balanceAfter = 0 ∧
        (st'.findUser uid).map UserRow.balance = some 0) ∧
    (hasAtMost2Decimals u.balance = true →
      process_transaction st uid k ty (u.balance + 1 / 100) d m =
        .error .insufficientFunds) := by
  have hcred : ty.isCreditClass = false := by
    rw [isDebitClass_eq_not_isCreditClass] at hdeb
    simpa using hdeb
  have h100 : hasAtMost2Decimals (1 / 100 : ℚ) = true := by
    norm_num [hasAtMost2Decimals, Rat.den]
  refine ⟨?_, ?_, ?_, ?_⟩
  · intro hamt
    unfold process_transaction
    rw [hu]
    simp only [hcred, Bool.false_eq_true, if_false]
    rw [hamt]
    constructor
    · intro h
      by_contra hge
      rw [if_neg hge] at h
      exact insertTx_ne_insufficientFunds h
    · intro hlt
      rw [if_pos hlt]
  · intro e he
    rw [he]
    rfl
  · intro hb2 hpos hfresh
    have hR : dbRound2 u.balance = u.balance := dbRound2_eq_self hb2
    have hPT : process_transaction st uid k ty u.balance d m =
        insertTx st uid k ty u.balance u.balance (u.balance - u.balance)
          d m := by
      unfold process_transaction
      rw [hu]
      simp only [hcred, Bool.false_eq_true, if_false]
      rw [hR, if_neg (by simp)]
    have hIns := @insertTx_ok_intro st uid k ty u.balance u.balance
      (u.balance - u.balance) d m hfresh hpos (le_of_lt hpos)
      (by simp) (Or.inr ⟨hdeb, rfl⟩)
    refine ⟨_, _, hPT.trans hIns, ?_, ?_⟩
    · simp [mkTxRow]
    · have := findUser_after_ok (hPT.trans hIns)
      simpa [mkTxRow] using this
  · intro hb2
    have hsum : dbRound2 (u.balance + 1 / 100) = u.balance + 1 / 100 :=
      dbRound2_eq_self (hasAtMost2Decimals_add hb2 h100)
    unfold process_transaction
    rw [hu]
    simp only [hcred, Bool.false_eq_true, if_false]
    rw [hsum, if_pos (by linarith)]

/-- Witness for C2: Scenario D — balance 50.25, debit of 1000 with key
`k3` fails with `InsufficientFunds`; a debit of the whole balance leaves 0;
a debit of 50.26 fails. -/
theorem debit_insufficientFunds_iff_boundary_witness :
    (exActive (201 / 4)).findUser "u1" =
      some { id := "u1", balance := 201 / 4, status := .active } ∧
    TxType.debit.isDebitClass = true ∧
    ((dbRound2 1000 = 1000 →
      (process_transaction (exActive (201 / 4)) "u1" "k3" .debit 1000
          none none = .error .insufficientFunds ↔
        (201 / 4 : ℚ) - 1000 < 0)) ∧
     (∀ e, process_transaction (exActive (201 / 4)) "u1" "k3" .debit 1000
          none none = .error e →
       stepState (exActive (201 / 4))
         (process_transaction (exActive (201 / 4)) "u1" "k3" .debit 1000
           none none) = exActive (201 / 4)) ∧
     (hasAtMost2Decimals (201 / 4) = true → (0 : ℚ) < 201 / 4 →
       (exActive (201 / 4)).findTx "k3" = none →
       ∃ st' rec, process_transaction (exActive (201 / 4)) "u1" "k3"
           .debit (201 / 4) none none = .ok (st', rec) ∧
         rec.balanceAfter = 0 ∧
         (st'.findUser "u1").map UserRow.balance = some 0) ∧
     (hasAtMost2Decimals (201 / 4) = true →
       process_transaction (exActive (201 / 4)) "u1" "k3" .debit
           ((201 / 4) + 1 / 100) none none =
         .error .insufficientFunds)) :=
  have hu : (exActive (201 / 4)).findUser "u1" =
      some { id := "u1", balance := 201 / 4, status := .active } := by
    simp [exActive, DbState.findUser]
  ⟨hu, rfl, debit_insufficientFunds_iff_boundary hu rfl⟩

/-- All stored balances are non-negative (the `users_balance_non_negative`
CHECK constraint, `init.sql` lines 13 and 21). -/
def DbState.BalancesNonneg (st : DbState) : Prop :=
  ∀ v ∈ st.users, 0 ≤ v.balance

/-- A successful repository `createTransaction` is exactly a successful
`process_transaction`. -/
theorem createTransaction_ok_elim {st : DbState}
    {d : CreateTransactionRequest} {st' : DbState} {t : TxRow}
    (h : TransactionRepository.createTransaction st d = .ok (st', t)) :
    process_transaction st d.userId d.transactionId d.type d.amount
      d.description d.metadata = .ok (st', t) := by
  unfold TransactionRepository.createTransaction at h
  cases hp : process_transaction st d.userId d.transactionId d.type d.amount
      d.description d.metadata with
  | ok r =>
      rw [hp] at h
      cases r
      simpa using h
  | error e =>
      rw [hp] at h
      cases e <;> simp at h

/-- A successful `creditUser` call is either an idempotent replay of a
stored entry (state unchanged) or a fresh `process_transaction` of type
`credit`. -/
theorem creditUser_ok_elim {st : DbState} {uid : String} {r : OpRequest}
    {st' : DbState} {t : TxRow}
    (h : WalletService.creditUser st uid r = .ok (st', t)) :
    (st.findTx r.transactionId = some t ∧ t.userId = uid ∧
      t.type = .credit ∧ st' = st) ∨
    (st.findTx r.transactionId = none ∧
      process_transaction st uid r.transactionId .credit r.amount
        r.description r.metadata = .ok (st', t)) := by
  unfold WalletService.creditUser at h
  cases hf : st.findTx r.transactionId with
  | some e =>
      rw [hf] at h
      simp only at h
      split at h
      · exact absurd h (by simp)
      · split at h
        · exact absurd h (by simp)
        · rename_i huser htype
          simp only [Except.ok.injEq, Prod.mk.injEq] at h
          obtain ⟨hst, ht⟩ := h
          exact Or.inl ⟨by rw [ht], by
              subst ht; exact Decidable.of_not_not huser, by
              subst ht; exact Decidable.of_not_not htype, hst.symm⟩
  | none =>
      rw [hf] at h
      simp only at h
      cases hv : UserService.validateUserExists st uid with
      | error e => rw [hv] at h; exact absurd h (by simp)
      | ok _ =>
          rw [hv] at h
          simp only at h
          cases ha : WalletService.validateAmount r.amount with
          | error e => rw [ha] at h; exact absurd h (by simp)
          | ok _ =>
              rw [ha] at h
              simp only at h
              have h2 := createTransaction_ok_elim h
              dsimp only at h2
              exact Or.inr ⟨rfl, h2⟩

/-- A successful `debitUser` call is either an idempotent replay of a
stored entry (state unchanged) or a fresh `process_transaction` of type
`debit`. -/
theorem debitUser_ok_elim {st : DbState} {uid : String} {r : OpRequest}
    {st' : DbState} {t : TxRow}
    (h : WalletService.debitUser st uid r = .ok (st', t)) :
    (st.findTx r.transactionId = some t ∧ t.userId = uid ∧
      t.type = .debit ∧ st' = st) ∨
    (st.findTx r.transactionId = none ∧
      process_transaction st uid r.transactionId .debit r.amount
        r.description r.metadata = .ok (st', t)) := by
  unfold WalletService.debitUser at h
  cases hf : st.findTx r.transactionId with
  | some e =>
      rw [hf] at h
      simp only at h
      split at h
      · exact absurd h (by simp)
      · split at h
        · exact absurd h (by simp)
        · rename_i huser htype
          simp only [Except.ok.injEq, Prod.mk.injEq] at h
          obtain ⟨hst, ht⟩ := h
          exact Or.inl ⟨by rw [ht], by
              subst ht; exact Decidable.of_not_not huser, by
              subst ht; exact Decidable.of_not_not htype, hst.symm⟩
  | none =>
      rw [hf] at h
      simp only at h
      cases hv : UserService.validateUserExists st uid with
      | error e => rw [hv] at h; exact absurd h (by simp)
      | ok _ =>
          rw [hv] at h
          simp only at h
          cases ha : WalletService.validateAmount r.amount with
          | error e => rw [ha] at h; exact absurd h (by simp)
          | ok _ =>
              rw [ha] at h
              simp only at h
              have h2 := createTransaction_ok_elim h
              dsimp only at h2
              exact Or.inr ⟨rfl, h2⟩

/-- A successful `processWager` call is a successful `process_transaction`
of type `wager`. -/
theorem processWager_ok_elim {st : DbState} {uid txid : String} {a : ℚ}
    {g meta : Option String} {st' : DbState} {t : TxRow}
    (h : WalletService.processWager st uid txid a g meta = .ok (st', t)) :
    process_transaction st uid txid .wager a
      (some (wagerDescription g)) meta = .ok (st', t) := by
  unfold WalletService.processWager at h
  cases hv : UserService.validateUserExists st uid with
  | error e => rw [hv] at h; exact absurd h (by simp)
  | ok _ =>
      rw [hv] at h
      simp only at h
      have h2 := createTransaction_ok_elim h
      dsimp only at h2
      exact h2

/-- A successful `processPayout` call is a successful `process_transaction`
of type `payout`. -/
theorem processPayout_ok_elim {st : DbState} {uid txid : String} {a : ℚ}
    {g meta : Option String} {st' : DbState} {t : TxRow}
    (h : WalletService.processPayout st uid txid a g meta = .ok (st', t)) :
    process_transaction st uid txid .payout a
      (some (payoutDescription g)) meta = .ok (st', t) := by
  unfold WalletService.processPayout at h
  cases hv : UserService.validateUserExists st uid with
  | error e => rw [hv] at h; exact absurd h (by simp)
  | ok _ =>
      rw [hv] at h
      simp only at h
      have h2 := createTransaction_ok_elim h
      dsimp only at h2
      exact h2

/-- The engine preserves non-negativity of every stored balance. -/
theorem process_transaction_preserves_nonneg {st : DbState}
    {uid k : String} {ty : TxType} {amt : ℚ} {d m : Option String}
    {st' : DbState} {rec : TxRow}
    (h : process_transaction st uid k ty amt d m = .ok (st', rec))
    (hinv : st.BalancesNonneg) : st'.BalancesNonneg := by
  obtain ⟨u, hu, -, hst, -, -, -, ha⟩ := process_transaction_ok_elim h
  subst hst
  intro v hv
  simp only [List.mem_map] at hv
  obtain ⟨w, hw, hveq⟩ := hv
  by_cases hcw : w.id == uid
  · rw [if_pos hcw] at hveq
    rw [← hveq]
    exact ha
  · rw [if_neg hcw] at hveq
    rw [← hveq]
    exact hinv w hw

/-- C4: every exposed operation (credit, debit, wager, payout) preserves
the invariant that all stored balances are non-negative — a replay leaves
the state unchanged, and a fresh transaction only writes a balance the
CHECK constraints accepted. -/
theorem every_operation_preserves_balance_nonneg {st : DbState} {op : Op}
    {st' : DbState} {t : TxRow} (hinv : st.BalancesNonneg)
    (h : runOp st op = .ok (st', t)) : st'.BalancesNonneg := by
  cases op with
  | credit u r =>
      simp only [runOp] at h
      rcases creditUser_ok_elim h with ⟨-, -, -, rfl⟩ | ⟨-, hp⟩
      · exact hinv
      · exact process_transaction_preserves_nonneg hp hinv
  | debit u r =>
      simp only [runOp] at h
      rcases debitUser_ok_elim h with ⟨-, -, -, rfl⟩ | ⟨-, hp⟩
      · exact hinv
      · exact process_transaction_preserves_nonneg hp hinv
  | wager u i a g m =>
      simp only [runOp] at h
      exact process_transaction_preserves_nonneg (processWager_ok_elim h) hinv
  | payout u i a g m =>
      simp only [runOp] at h
      exact process_transaction_preserves_nonneg (processPayout_ok_elim h) hinv

/-- Witness for C4: crediting 100.50 to the zero-balance account keeps all
balances non-negative. -/
theorem every_operation_preserves_balance_nonneg_witness :
    (exActive 0).BalancesNonneg ∧
    runOp (exActive 0) (.credit "u1"
        { transactionId := "k1", amount := 201 / 2, description := none,
          metadata := none }) =
      .ok ({ users := [{ id := "u1", balance := 201 / 2, status := .active }],
             transactions :=
               [{ id := 0, userId := "u1", transactionId := "k1",
                  type := .credit, amount := 201 / 2, balanceBefore := 0,
                  balanceAfter := 201 / 2, description := none,
                  metadata := none, processedAt := 0 }],
             nextId := 1, clock := 0 },
        { id := 0, userId := "u1", transactionId := "k1", type := .credit,
          amount := 201 / 2, balanceBefore := 0, balanceAfter := 201 / 2,
          description := none, metadata := none, processedAt := 0 }) ∧
    DbState.BalancesNonneg
      { users := [{ id := "u1", balance := 201 / 2, status := .active }],
        transactions :=
          [{ id := 0, userId := "u1", transactionId := "k1",
             type := .credit, amount := 201 / 2, balanceBefore := 0,
             balanceAfter := 201 / 2, description := none,
             metadata := none, processedAt := 0 }],
        nextId := 1, clock := 0 } :=
  have hinv : (exActive 0).BalancesNonneg := by
    intro v hv
    simp only [exActive, List.mem_singleton] at hv
    rw [hv]
  have h : runOp (exActive 0) (.credit "u1"
      { transactionId := "k1", amount := 201 / 2, description := none,
        metadata := none }) =
      .ok ({ users := [{ id := "u1", balance := 201 / 2, status := .active }],
             transactions :=
               [{ id := 0, userId := "u1", transactionId := "k1",
                  type := .credit, amount := 201 / 2, balanceBefore := 0,
                  balanceAfter := 201 / 2, description := none,
                  metadata := none, processedAt := 0 }],
             nextId := 1, clock := 0 },
        { id := 0, userId := "u1", transactionId := "k1", type := .credit,
          amount := 201 / 2, balanceBefore := 0, balanceAfter := 201 / 2,
          description := none, metadata := none, processedAt := 0 }) := by
    simp only [runOp, WalletService.creditUser, UserService.validateUserExists,
      WalletService.validateAmount, TransactionRepository.createTransaction,
      process_transaction, insertTx, mkTxRow, TxRow.satisfiesChecks,
      DbState.findUser, DbState.findTx, exActive, TxType.isCreditClass]
    norm_num [hasAtMost2Decimals, Rat.den, dbRound2, List.find?]
  ⟨hinv, h, every_operation_preserves_balance_nonneg hinv h⟩

/-- A stored credit entry for user `u1` under key `k1`. -/
def exTx : TxRow :=
  { id := 0, userId := "u1", transactionId := "k1", type := .credit,
    amount := 10, balanceBefore := 0, balanceAfter := 10,
    description := some "first credit", metadata := none, processedAt := 0 }

/-- A database holding `exTx`, its owner `u1` (suspended) and a second
active user `u2`. -/
def exStateWithTx : DbState :=
  { users := [{ id := "u1", balance := 10, status := .suspended },
              { id := "u2", balance := 50, status := .active }],
    transactions := [exTx], nextId := 1, clock := 3 }

/-- C7: when the idempotency key already has a stored entry, `creditUser`
and `debitUser` fail with an `IdempotencyKeyConflict` error if the entry
belongs to a different account or records a different operation type, and
an error creates no new entry (rollback). -/
theorem idempotency_key_conflict {st : DbState} {uid : String}
    {r : OpRequest} {t : TxRow} (hf : st.findTx r.transactionId = some t) :
    (t.userId ≠ uid →
      WalletService.creditUser st uid r = .error .txIdDifferentUser ∧
      WalletService.debitUser st uid r = .error .txIdDifferentUser) ∧
    (t.userId = uid → t.type ≠ .credit →
      WalletService.creditUser st uid r = .error .txIdDifferentType) ∧
    (t.userId = uid → t.type ≠ .debit →
      WalletService.debitUser st uid r = .error .txIdDifferentType) ∧
    (∀ e, WalletService.creditUser st uid r = .error e →
      stepState st (WalletService.creditUser st uid r) = st) ∧
    (∀ e, WalletService.debitUser st uid r = .error e →
      stepState st (WalletService.debitUser st uid r) = st) ∧
    WalletError.txIdDifferentUser.isIdempotencyKeyConflict = true ∧
    WalletError.txIdDifferentType.isIdempotencyKeyConflict = true := by
  refine ⟨?_, ?_, ?_, ?_, ?_, rfl, rfl⟩
  · intro hud
    constructor
    · unfold WalletService.creditUser
      rw [hf]
      simp only
      rw [if_pos hud]
    · unfold WalletService.debitUser
      rw [hf]
      simp only
      rw [if_pos hud]
  · intro hud hty
    unfold WalletService.creditUser
    rw [hf]
    simp only
    rw [if_neg (by simp [hud]), if_pos hty]
  · intro hud hty
    unfold WalletService.debitUser
    rw [hf]
    simp only
    rw [if_neg (by simp [hud]), if_pos hty]
  · intro e he
    rw [he]
    rfl
  · intro e he
    rw [he]
    rfl

/-- Witness for C7: key `k1` is stored for user `u1` as a credit, so a
credit by `u2` and a debit by `u1` under the same key are conflicts. -/
theorem idempotency_key_conflict_witness :
    exStateWithTx.findTx "k1" = some exTx ∧
    (exTx.userId ≠ "u2" →
      WalletService.creditUser exStateWithTx "u2"
          { transactionId := "k1", amount := 10, description := none,
            metadata := none } = .error .txIdDifferentUser ∧
      WalletService.debitUser exStateWithTx "u2"
          { transactionId := "k1", amount := 10, description := none,
            metadata := none } = .error .txIdDifferentUser) ∧
    (exTx.userId = "u2" → exTx.type ≠ .credit →
      WalletService.creditUser exStateWithTx "u2"
          { transactionId := "k1", amount := 10, description := none,
            metadata := none } = .error .txIdDifferentType) ∧
    (exTx.userId = "u2" → exTx.type ≠ .debit →
      WalletService.debitUser exStateWithTx "u2"
          { transactionId := "k1", amount := 10, description := none,
            metadata := none } = .error .txIdDifferentType) ∧
    (∀ e, WalletService.creditUser exStateWithTx "u2"
          { transactionId := "k1", amount := 10, description := none,
            metadata := none } = .error e →
      stepState exStateWithTx (WalletService.creditUser exStateWithTx "u2"
        { transactionId := "k1", amount := 10, description := none,
          metadata := none }) = exStateWithTx) ∧
    (∀ e, WalletService.debitUser exStateWithTx "u2"
          { transactionId := "k1", amount := 10, description := none,
            metadata := none } = .error e →
      stepState exStateWithTx (WalletService.debitUser exStateWithTx "u2"
        { transactionId := "k1", amount := 10, description := none,
          metadata := none }) = exStateWithTx) ∧
    WalletError.txIdDifferentUser.isIdempotencyKeyConflict = true ∧
    WalletError.txIdDifferentType.isIdempotencyKeyConflict = true :=
  have hf : exStateWithTx.findTx "k1" = some exTx := by
    simp [exStateWithTx, DbState.findTx, exTx]
  ⟨hf, idempotency_key_conflict hf⟩

/-- The replay branch of `creditUser`: a stored entry matching account and
type is returned as is, with the state untouched. -/
theorem creditUser_replay {st : DbState} {uid : String} {r : OpRequest}
    {t : TxRow} (hf : st.findTx r.transactionId = some t)
    (huser : t.userId = uid) (hty : t.type = .credit) :
    WalletService.creditUser st uid r = .ok (st, t) := by
  unfold WalletService.creditUser
  rw [hf]
  simp only
  rw [if_neg (by simp [huser]), if_neg (by simp [hty])]

/-- The replay branch of `debitUser`: a stored entry matching account and
type is returned as is, with the state untouched. -/
theorem debitUser_replay {st : DbState} {uid : String} {r : OpRequest}
    {t : TxRow} (hf : st.findTx r.transactionId = some t)
    (huser : t.userId = uid) (hty : t.type = .debit) :
    WalletService.debitUser st uid r = .ok (st, t) := by
  unfold WalletService.debitUser
  rw [hf]
  simp only
  rw [if_neg (by simp [huser]), if_neg (by simp [hty])]

/-- C9: when the stored entry matches the request's account and operation
type, `creditUser`/`debitUser` return it without re-validating anything:
no hypothesis about the account's existence or status is needed, and the
request's `amount`, `description` and `metadata` are arbitrary. -/
theorem replay_skips_validation {st : DbState} {uid : String}
    {r : OpRequest} {t : TxRow} (hf : st.findTx r.transactionId = some t)
    (huser : t.userId = uid) :
    (t.type = .credit → WalletService.creditUser st uid r = .ok (st, t)) ∧
    (t.type = .debit → WalletService.debitUser st uid r = .ok (st, t)) :=
  ⟨fun hty => creditUser_replay hf huser hty,
   fun hty => debitUser_replay hf huser hty⟩

/-- Witness for C9: the replay of `k1` succeeds and returns the stored
entry although `u1` is now suspended and the replayed request differs in
amount, description and metadata from the stored entry. -/
theorem replay_skips_validation_witness :
    exStateWithTx.findTx "k1" = some exTx ∧
    exTx.userId = "u1" ∧
    ((exStateWithTx.findUser "u1").map UserRow.status =
      some UserStatus.suspended) ∧
    (exTx.type = .credit →
      WalletService.creditUser exStateWithTx "u1"
          { transactionId := "k1", amount := 999 / 8,
            description := some "different description",
            metadata := some "different metadata" } =
        .ok (exStateWithTx, exTx)) ∧
    (exTx.type = .debit →
      WalletService.debitUser exStateWithTx "u1"
          { transactionId := "k1", amount := 999 / 8,
            description := some "different description",
            metadata := some "different metadata" } =
        .ok (exStateWithTx, exTx)) :=
  have hf : exStateWithTx.findTx "k1" = some exTx := by
    simp [exStateWithTx, DbState.findTx, exTx]
  have hst : (exStateWithTx.findUser "u1").map UserRow.status =
      some UserStatus.suspended := by
    simp [exStateWithTx, DbState.findUser]
  have h := @replay_skips_validation exStateWithTx "u1"
    { transactionId := "k1", amount := 999 / 8,
      description := some "different description",
      metadata := some "different metadata" } exTx hf rfl
  ⟨hf, rfl, hst, h.1, h.2⟩

/-- `validateUserExists` on a missing account. -/
theorem validateUserExists_none {st : DbState} {uid : String}
    (h : st.findUser uid = none) :
    UserService.validateUserExists st uid = .error .userNotFound := by
  unfold UserService.validateUserExists
  rw [h]

/-- `validateUserExists` on an account whose status is not `active`. -/
theorem validateUserExists_inactive {st : DbState} {uid : String}
    {u : UserRow} (h : st.findUser uid = some u)
    (hs : u.status ≠ .active) :
    UserService.validateUserExists st uid =
      .error (.userNotActive u.status) := by
  unfold UserService.validateUserExists
  rw [h]
  simp only
  rw [if_pos hs]

/-- C8: with no pre-existing entry for the key, every service operation
fails with `AccountNotFound` when the target account does not exist and
with `AccountNotActive` when it exists with a non-`active` status; the
engine itself also rejects a missing account; an error rolls back, so no
entry is created and no balance changes. -/
theorem missing_or_inactive_account_rejected {st : DbState} {uid : String}
    {r : OpRequest} {txid : String} {a : ℚ} {g meta : Option String} :
    (st.findUser uid = none →
      (∀ k ty amt d m, process_transaction st uid k ty amt d m =
        .error DbError.userNotFound) ∧
      (st.findTx r.transactionId = none →
        WalletService.creditUser st uid r = .error .userNotFound ∧
        WalletService.debitUser st uid r = .error .userNotFound) ∧
      WalletService.processWager st uid txid a g meta =
        .error .userNotFound ∧
      WalletService.processPayout st uid txid a g meta =
        .error .userNotFound) ∧
    (∀ u, st.findUser uid = some u → u.status ≠ .active →
      (st.findTx r.transactionId = none →
        WalletService.creditUser st uid r =
          .error (.userNotActive u.status) ∧
        WalletService.debitUser st uid r =
          .error (.userNotActive u.status)) ∧
      WalletService.processWager st uid txid a g meta =
        .error (.userNotActive u.status) ∧
      WalletService.processPayout st uid txid a g meta =
        .error (.userNotActive u.status)) ∧
    (∀ (e : WalletError) (res : Except WalletError (DbState × TxRow)),
      res = .error e → stepState st res = st) := by
  refine ⟨?_, ?_, ?_⟩
  · intro hnone
    refine ⟨?_, ?_, ?_, ?_⟩
    · intro k ty amt d m
      unfold process_transaction
      rw [hnone]
    · intro hfr
      constructor
      · unfold WalletService.creditUser
        rw [hfr]
        simp only
        rw [validateUserExists_none hnone]
      · unfold WalletService.debitUser
        rw [hfr]
        simp only
        rw [validateUserExists_none hnone]
    · unfold WalletService.processWager
      rw [validateUserExists_none hnone]
    · unfold WalletService.processPayout
      rw [validateUserExists_none hnone]
  · intro u hu hs
    refine ⟨?_, ?_, ?_⟩
    · intro hfr
      constructor
      · unfold WalletService.creditUser
        rw [hfr]
        simp only
        rw [validateUserExists_inactive hu hs]
      · unfold WalletService.debitUser
        rw [hfr]
        simp only
        rw [validateUserExists_inactive hu hs]
    · unfold WalletService.processWager
      rw [validateUserExists_inactive hu hs]
    · unfold WalletService.processPayout
      rw [validateUserExists_inactive hu hs]
  · intro e res hres
    rw [hres]
    rfl

/-- Witness for C8: against `exStateWithTx`, operations for the unknown
account `ghost` fail with `AccountNotFound`, and operations for the
suspended `u1` under a fresh key fail with `AccountNotActive`. -/
theorem missing_or_inactive_account_rejected_witness :
    exStateWithTx.findUser "ghost" = none ∧
    exStateWithTx.findTx "fresh-key" = none ∧
    exStateWithTx.findUser "u1" =
      some { id := "u1", balance := 10, status := .suspended } ∧
    WalletService.creditUser exStateWithTx "ghost"
        { transactionId := "fresh-key", amount := 5, description := none,
          metadata := none } = .error .userNotFound ∧
    WalletService.processWager exStateWithTx "ghost" "w9" 5 none none =
      .error .userNotFound ∧
    WalletService.debitUser exStateWithTx "u1"
        { transactionId := "fresh-key", amount := 5, description := none,
          metadata := none } =
      .error (.userNotActive UserStatus.suspended) ∧
    WalletService.processPayout exStateWithTx "u1" "p9" 5 none none =
      .error (.userNotActive UserStatus.suspended) :=
  have hghost : exStateWithTx.findUser "ghost" = none := by
    simp [exStateWithTx, DbState.findUser]
  have hfr : exStateWithTx.findTx "fresh-key" = none := by
    simp [exStateWithTx, DbState.findTx, exTx]
  have hu1 : exStateWithTx.findUser "u1" =
      some { id := "u1", balance := 10, status := .suspended } := by
    simp [exStateWithTx, DbState.findUser]
  have hg := @missing_or_inactive_account_rejected exStateWithTx "ghost"
    { transactionId := "fresh-key", amount := 5, description := none,
      metadata := none } "w9" 5 none none
  have hs := @missing_or_inactive_account_rejected exStateWithTx "u1"
    { transactionId := "fresh-key", amount := 5, description := none,
      metadata := none } "p9" 5 none none
  ⟨hghost, hfr, hu1,
    ((hg.1 hghost).2.1 hfr).1,
    (hg.1 hghost).2.2.1,
    ((hs.2.1 _ hu1 (by simp)).1 hfr).2,
    (hs.2.1 _ hu1 (by simp)).2.2⟩

/-- The entry a successful `process_transaction` appends is found by its
idempotency key afterwards. -/
theorem findTx_after_ok {st : DbState} {uid k : String} {ty : TxType}
    {amt : ℚ} {d m : Option String} {st' : DbState} {rec : TxRow}
    (h : process_transaction st uid k ty amt d m = .ok (st', rec)) :
    st'.findTx k = some rec := by
  obtain ⟨u, hu, hrec, hst, -⟩ := process_transaction_ok_elim h
  subst hst
  unfold DbState.findTx
  have hid : rec.transactionId = k := by rw [hrec]; rfl
  simp [List.find?_cons, hid]

/-- C3: a second `creditUser`/`debitUser` call with the same idempotency
key, account and operation type returns the identical `LedgerEntry` the
first call produced and leaves the state exactly as the first call left it
(so the Transaction Engine writes nothing on the replay and the balance
changes exactly once across both calls); when the first call was fresh, the
balance it left is the entry's `balance_after`. -/
theorem idempotent_replay_same_entry {st : DbState} {uid : String}
    {r : OpRequest} {st1 : DbState} {t1 : TxRow} :
    (WalletService.creditUser st uid r = .ok (st1, t1) →
      WalletService.creditUser st1 uid r = .ok (st1, t1) ∧
      (st.findTx r.transactionId = none →
        (st1.findUser uid).map UserRow.balance = some t1.balanceAfter)) ∧
    (WalletService.debitUser st uid r = .ok (st1, t1) →
      WalletService.debitUser st1 uid r = .ok (st1, t1) ∧
      (st.findTx r.transactionId = none →
        (st1.findUser uid).map UserRow.balance = some t1.balanceAfter)) := by
  constructor
  · intro h1
    rcases creditUser_ok_elim h1 with ⟨hfound, huid, hty, rfl⟩ | ⟨hfr, hp⟩
    · refine ⟨creditUser_replay hfound huid hty, ?_⟩
      intro hnone
      rw [hnone] at hfound
      cases hfound
    · obtain ⟨u, hu, hrec, -, -⟩ := process_transaction_ok_elim hp
      have huid : t1.userId = uid := by rw [hrec]; rfl
      have hty : t1.type = .credit := by rw [hrec]; rfl
      exact ⟨creditUser_replay (findTx_after_ok hp) huid hty,
        fun _ => findUser_after_ok hp⟩
  · intro h1
    rcases debitUser_ok_elim h1 with ⟨hfound, huid, hty, rfl⟩ | ⟨hfr, hp⟩
    · refine ⟨debitUser_replay hfound huid hty, ?_⟩
      intro hnone
      rw [hnone] at hfound
      cases hfound
    · obtain ⟨u, hu, hrec, -, -⟩ := process_transaction_ok_elim hp
      have huid : t1.userId = uid := by rw [hrec]; rfl
      have hty : t1.type = .debit := by rw [hrec]; rfl
      exact ⟨debitUser_replay (findTx_after_ok hp) huid hty,
        fun _ => findUser_after_ok hp⟩

/-- Witness for C3: after crediting 100.50 under key `k1`, repeating the
same call returns the very same entry and state. -/
theorem idempotent_replay_same_entry_witness :
    WalletService.creditUser (exActive 0) "u1"
        { transactionId := "k1", amount := 201 / 2, description := none,
          metadata := none } =
      .ok ({ users := [{ id := "u1", balance := 201 / 2, status := .active }],
             transactions :=
               [{ id := 0, userId := "u1", transactionId := "k1",
                  type := .credit, amount := 201 / 2, balanceBefore := 0,
                  balanceAfter := 201 / 2, description := none,
                  metadata := none, processedAt := 0 }],
             nextId := 1, clock := 0 },
        { id := 0, userId := "u1", transactionId := "k1", type := .credit,
          amount := 201 / 2, balanceBefore := 0, balanceAfter := 201 / 2,
          description := none, metadata := none, processedAt := 0 }) ∧
    WalletService.creditUser
        { users := [{ id := "u1", balance := 201 / 2, status := .active }],
          transactions :=
            [{ id := 0, userId := "u1", transactionId := "k1",
               type := .credit, amount := 201 / 2, balanceBefore := 0,
               balanceAfter := 201 / 2, description := none,
               metadata := none, processedAt := 0 }],
          nextId := 1, clock := 0 } "u1"
        { transactionId := "k1", amount := 201 / 2, description := none,
          metadata := none } =
      .ok ({ users := [{ id := "u1", balance := 201 / 2, status := .active }],
             transactions :=
               [{ id := 0, userId := "u1", transactionId := "k1",
                  type := .credit, amount := 201 / 2, balanceBefore := 0,
                  balanceAfter := 201 / 2, description := none,
                  metadata := none, processedAt := 0 }],
             nextId := 1, clock := 0 },
        { id := 0, userId := "u1", transactionId := "k1", type := .credit,
          amount := 201 / 2, balanceBefore := 0, balanceAfter := 201 / 2,
          description := none, metadata := none, processedAt := 0 }) :=
  have h1 : WalletService.creditUser (exActive 0) "u1"
      { transactionId := "k1", amount := 201 / 2, description := none,
        metadata := none } =
      .ok ({ users := [{ id := "u1", balance := 201 / 2, status := .active }],
             transactions :=
               [{ id := 0, userId := "u1", transactionId := "k1",
                  type := .credit, amount := 201 / 2, balanceBefore := 0,
                  balanceAfter := 201 / 2, description := none,
                  metadata := none, processedAt := 0 }],
             nextId := 1, clock := 0 },
        { id := 0, userId := "u1", transactionId := "k1", type := .credit,
          amount := 201 / 2, balanceBefore := 0, balanceAfter := 201 / 2,
          description := none, metadata := none, processedAt := 0 }) := by
    simp only [WalletService.creditUser, UserService.validateUserExists,
      WalletService.validateAmount, TransactionRepository.createTransaction,
      process_transaction, insertTx, mkTxRow, TxRow.satisfiesChecks,
      DbState.findUser, DbState.findTx, exActive, TxType.isCreditClass]
    norm_num [hasAtMost2Decimals, Rat.den, dbRound2, List.find?]
  ⟨h1, (idempotent_replay_same_entry.1 h1).1⟩

/-- `validateUserExists` on an active account. -/
theorem validateUserExists_active {st : DbState} {uid : String}
    {u : UserRow} (h : st.findUser uid = some u)
    (hs : u.status = .active) :
    UserService.validateUserExists st uid = .ok () := by
  unfold UserService.validateUserExists
  rw [h]
  simp only
  rw [if_neg (by simp [hs])]

/-- `validateAmount` rejects a non-positive amount. -/
theorem validateAmount_nonpos {a : ℚ} (h : a ≤ 0) :
    WalletService.validateAmount a = .error .amountNotPositive := by
  unfold WalletService.validateAmount
  rw [if_pos h]

/-- `validateAmount` rejects a positive amount with more than two decimal
places. -/
theorem validateAmount_decimals {a : ℚ} (h1 : 0 < a)
    (h2 : hasAtMost2Decimals a = false) :
    WalletService.validateAmount a = .error .amountTooManyDecimals := by
  unfold WalletService.validateAmount
  rw [if_neg (not_le.mpr h1), h2]
  rfl

/-- Counterexample to C6: `processWager` performs no amount validation —
a wager of 0.005 (three fractional digits) on an active account does not
fail with `InvalidAmount`; it succeeds and creates a ledger entry (the
storage layer rounds the amount to 0.01).  Likewise the validation in
`creditUser` only runs after the account checks: a credit of a negative
amount to a missing account fails with `AccountNotFound`, not
`InvalidAmount`. -/
theorem amount_validation_not_universal :
    hasAtMost2Decimals (1 / 200) = false ∧
    (WalletService.processWager (exActive 100) "u1" "w1" (1 / 200)
      none none).isOk = true ∧
    (stepState (exActive 100)
      (WalletService.processWager (exActive 100) "u1" "w1" (1 / 200)
        none none)).transactions.length = 1 ∧
    WalletService.creditUser (exActive 100) "ghost"
        { transactionId := "k9", amount := -1, description := none,
          metadata := none } = .error .userNotFound := by
  refine ⟨?_, ?_, ?_, ?_⟩
  · norm_num [hasAtMost2Decimals, Rat.den]
  · simp only [WalletService.processWager, UserService.validateUserExists,
      TransactionRepository.createTransaction, process_transaction,
      insertTx, mkTxRow, TxRow.satisfiesChecks, DbState.findUser,
      DbState.findTx, exActive, TxType.isCreditClass, TxType.isDebitClass]
    norm_num [dbRound2, List.find?, Except.isOk, Except.toBool]
  · simp only [WalletService.processWager, UserService.validateUserExists,
      TransactionRepository.createTransaction, process_transaction,
      insertTx, mkTxRow, TxRow.satisfiesChecks, DbState.findUser,
      DbState.findTx, exActive, TxType.isCreditClass, TxType.isDebitClass]
    norm_num [dbRound2, List.find?, stepState]
  · simp [WalletService.creditUser, UserService.validateUserExists,
      DbState.findUser, DbState.findTx, exActive]

/-- C6 as amended: only `creditUser` and `debitUser` validate the amount,
and only after the idempotency pre-check misses and the account is found
active; then a non-positive amount fails with `Amount must be positive`
and a positive amount with more than two decimal places fails with
`Amount must have at most 2 decimal places` (the spec's `InvalidAmount`
kinds), and the failure creates no ledger entry. -/
theorem credit_debit_invalid_amount {st : DbState} {uid : String}
    {r : OpRequest} {u : UserRow} (hf : st.findTx r.transactionId = none)
    (hu : st.findUser uid = some u) (hact : u.status = .active) :
    (r.amount ≤ 0 →
      WalletService.creditUser st uid r = .error .amountNotPositive ∧
      WalletService.debitUser st uid r = .error .amountNotPositive) ∧
    (0 < r.amount → hasAtMost2Decimals r.amount = false →
      WalletService.creditUser st uid r = .error .amountTooManyDecimals ∧
      WalletService.debitUser st uid r = .error .amountTooManyDecimals) ∧
    (∀ e, WalletService.creditUser st uid r = .error e →
      stepState st (WalletService.creditUser st uid r) = st) ∧
    (∀ e, WalletService.debitUser st uid r = .error e →
      stepState st (WalletService.debitUser st uid r) = st) ∧
    WalletError.amountNotPositive.isInvalidAmount = true ∧
    WalletError.amountTooManyDecimals.isInvalidAmount = true := by
  have hv := validateUserExists_active hu hact
  refine ⟨?_, ?_, ?_, ?_, rfl, rfl⟩
  · intro hle
    constructor
    · unfold WalletService.creditUser
      rw [hf]
      simp only
      rw [hv]
      simp only
      rw [validateAmount_nonpos hle]
    · unfold WalletService.debitUser
      rw [hf]
      simp only
      rw [hv]
      simp only
      rw [validateAmount_nonpos hle]
  · intro hpos hdec
    constructor
    · unfold WalletService.creditUser
      rw [hf]
      simp only
      rw [hv]
      simp only
      rw [validateAmount_decimals hpos hdec]
    · unfold WalletService.debitUser
      rw [hf]
      simp only
      rw [hv]
      simp only
      rw [validateAmount_decimals hpos hdec]
  · intro e he
    rw [he]
    rfl
  · intro e he
    rw [he]
    rfl

/-- Witness for amended C6: on the active account `u1` with a fresh key,
a credit of −1 and a credit of 0.005 fail with the two `InvalidAmount`
kinds. -/
theorem credit_debit_invalid_amount_witness :
    (exActive 100).findTx "n1" = none ∧
    (exActive 100).findUser "u1" =
      some { id := "u1", balance := 100, status := .active } ∧
    WalletService.creditUser (exActive 100) "u1"
        { transactionId := "n1", amount := -1, description := none,
          metadata := none } = .error .amountNotPositive ∧
    WalletService.debitUser (exActive 100) "u1"
        { transactionId := "n1", amount := 1 / 200, description := none,
          metadata := none } = .error .amountTooManyDecimals :=
  have hf : (exActive 100).findTx "n1" = none := by
    simp [exActive, DbState.findTx]
  have hu : (exActive 100).findUser "u1" =
      some { id := "u1", balance := 100, status := .active } := by
    simp [exActive, DbState.findUser]
  have h1 := credit_debit_invalid_amount
    (r := { transactionId := "n1", amount := -1, description := none,
            metadata := none }) hf hu rfl
  have h2 := credit_debit_invalid_amount
    (r := { transactionId := "n1", amount := 1 / 200, description := none,
            metadata := none }) hf hu rfl
  ⟨hf, hu, (h1.1 (by norm_num)).1,
    (h2.2.1 (by norm_num) (by norm_num [hasAtMost2Decimals, Rat.den])).2⟩

/-- The full user row found after a successful `process_transaction`: the
same row with the new balance written back. -/
theorem findUser_after_ok_row {st : DbState} {uid k : String} {ty : TxType}
    {amt : ℚ} {d m : Option String} {st' : DbState} {rec : TxRow}
    {u : UserRow} (h : process_transaction st uid k ty amt d m =
      .ok (st', rec)) (hu : st.findUser uid = some u) :
    st'.findUser uid = some { u with balance := rec.balanceAfter } := by
  obtain ⟨u', hu', -, hst, -⟩ := process_transaction_ok_elim h
  subst hst
  unfold DbState.findUser at hu ⊢
  rw [find?_map_update, hu]
  rfl

/-- A successful `process_transaction` does not disturb the lookup of any
other idempotency key. -/
theorem findTx_after_ok_ne {st : DbState} {uid k : String} {ty : TxType}
    {amt : ℚ} {d m : Option String} {st' : DbState} {rec : TxRow}
    (h : process_transaction st uid k ty amt d m = .ok (st', rec))
    {k' : String} (hne : k ≠ k') : st'.findTx k' = st.findTx k' := by
  obtain ⟨u, hu, hrec, hst, -⟩ := process_transaction_ok_elim h
  subst hst
  unfold DbState.findTx
  have hid : rec.transactionId = k := by rw [hrec]; rfl
  simp [List.find?_cons, hid, hne]

/-- One serialized schedule of debit calls: each call starts in the state
committed by the previous one, exactly as the exclusive row lock of
`process_transaction` forces for one account (`SELECT ... FOR UPDATE`,
`init.sql` lines 96–100). -/
def applyDebits (uid : String) (a : ℚ) :
    DbState → List String → Except DbError (DbState × List TxRow)
  | st, [] => .ok (st, [])
  | st, k :: ks =>
      match process_transaction st uid k .debit a none none with
      | .error e => .error e
      | .ok (st', rec) =>
          match applyDebits uid a st' ks with
          | .error e => .error e
          | .ok (st'', recs) => .ok (st'', rec :: recs)

/-- C5: N serialized debit calls of amount `a` with fresh distinct keys
against an account with balance `B ≥ N·a` all succeed; the final balance is
exactly `B − N·a`; every entry debits exactly `a`; the first entry's
`balance_before` is `B`; and each subsequent call observes the previous
call's committed balance as its `balance_before` (no lost updates). -/
theorem concurrent_debits_serialize {uid : String} {a : ℚ}
    (ks : List String) :
    ∀ (st : DbState) (u : UserRow), st.findUser uid = some u →
      (∀ k ∈ ks, st.findTx k = none) → ks.Nodup → 0 < a →
      hasAtMost2Decimals a = true →
      (ks.length : ℚ) * a ≤ u.balance →
      ∃ st' recs, applyDebits uid a st ks = .ok (st', recs) ∧
        (st'.findUser uid).map UserRow.balance =
          some (u.balance - (ks.length : ℚ) * a) ∧
        recs.length = ks.length ∧
        (∀ rec ∈ recs, rec.balanceAfter = rec.balanceBefore - a) ∧
        (∀ r0, recs.head? = some r0 → r0.balanceBefore = u.balance) ∧
        recs.Chain' (fun r1 r2 => r2.balanceBefore = r1.balanceAfter) := by
  induction ks with
  | nil =>
      intro st u hu _ _ _ _ _
      refine ⟨st, [], rfl, ?_, rfl, by simp, by simp, by simp⟩
      rw [hu]
      norm_num
  | cons k ks ih =>
      intro st u hu hfresh hnodup hapos h2dec hbound
      have hR : dbRound2 a = a := dbRound2_eq_self h2dec
      have hcast : ((k :: ks).length : ℚ) = (ks.length : ℚ) + 1 := by
        push_cast [List.length_cons]
        ring
      have hlen0 : (0 : ℚ) ≤ (ks.length : ℚ) * a :=
        mul_nonneg (by positivity) (le_of_lt hapos)
      have hbound' : (ks.length : ℚ) * a + a ≤ u.balance := by
        rw [hcast] at hbound
        linarith
      have hnotlt : ¬(u.balance - a < 0) := by linarith
      have hb0 : 0 ≤ u.balance := by linarith
      have hafter0 : 0 ≤ u.balance - a := by linarith
      have hstep : process_transaction st uid k .debit a none none =
          insertTx st uid k .debit a u.balance (u.balance - a)
            none none := by
        unfold process_transaction
        rw [hu]
        simp only [TxType.isCreditClass, Bool.false_eq_true, if_false]
        rw [hR, if_neg hnotlt]
      have hfreshk : st.findTx k = none := hfresh k (List.mem_cons_self k ks)
      have hins := @insertTx_ok_intro st uid k .debit a u.balance
        (u.balance - a) none none hfreshk hapos hb0
        hafter0 (Or.inr ⟨rfl, rfl⟩)
      have hok := hstep.trans hins
      have hu1 := findUser_after_ok_row hok hu
      have hnodup' := (List.nodup_cons.mp hnodup).2
      have hkmem := (List.nodup_cons.mp hnodup).1
      have hfresh1 : ∀ k' ∈ ks, ∀ {st1 : DbState} {rec1 : TxRow},
          process_transaction st uid k .debit a none none =
            .ok (st1, rec1) → st1.findTx k' = none := by
        intro k' hk' st1 rec1 h1
        rw [findTx_after_ok_ne h1 (fun he => hkmem (he ▸ hk'))]
        exact hfresh k' (List.mem_cons_of_mem _ hk')
      obtain ⟨st'', recs, happ, hbal, hrlen, hall, hhead, hchain⟩ :=
        ih _ _ hu1 (fun k' hk' => hfresh1 k' hk' hok) hnodup' hapos h2dec
          (by
            show (ks.length : ℚ) * a ≤
              (mkTxRow st uid k .debit a u.balance (u.balance - a)
                none none).balanceAfter
            simp only [mkTxRow]
            linarith)
      refine ⟨st'', mkTxRow st uid k .debit a u.balance (u.balance - a)
        none none :: recs, ?_, ?_, ?_, ?_, ?_, ?_⟩
      · show applyDebits uid a st (k :: ks) = _
        unfold applyDebits
        rw [hok]
        simp only
        rw [happ]
      · rw [hbal]
        congr 1
        rw [hcast]
        simp only [mkTxRow]
        ring
      · simp [hrlen]
      · intro rec' hmem
        rcases List.mem_cons.mp hmem with hh | ht
        · rw [hh]
          simp [mkTxRow]
        · exact hall rec' ht
      · intro r0 h0
        simp only [List.head?_cons, Option.some.injEq] at h0
        rw [← h0]
        simp [mkTxRow]
      · rw [List.chain'_cons']
        refine ⟨?_, hchain⟩
        intro r0 h0
        rw [hhead r0 h0]

/-- Witness for C5: two serialized debits of 3 against balance 10 under
keys `k1`, `k2` both succeed and leave balance 4. -/
theorem concurrent_debits_serialize_witness :
    (exActive 10).findUser "u1" =
      some { id := "u1", balance := 10, status := .active } ∧
    (∀ k ∈ ["k1", "k2"], (exActive 10).findTx k = none) ∧
    (["k1", "k2"] : List String).Nodup ∧
    (0 : ℚ) < 3 ∧ hasAtMost2Decimals 3 = true ∧
    ((["k1", "k2"] : List String).length : ℚ) * 3 ≤ (10 : ℚ) ∧
    (∃ st' recs, applyDebits "u1" 3 (exActive 10) ["k1", "k2"] =
        .ok (st', recs) ∧
      (st'.findUser "u1").map UserRow.balance =
        some ((10 : ℚ) - ((["k1", "k2"] : List String).length : ℚ) * 3) ∧
      recs.length = (["k1", "k2"] : List String).length ∧
      (∀ rec ∈ recs, rec.balanceAfter = rec.balanceBefore - 3) ∧
      (∀ r0, recs.head? = some r0 → r0.balanceBefore = (10 : ℚ)) ∧
      recs.Chain' (fun r1 r2 => r2.balanceBefore = r1.balanceAfter)) :=
  have hu : (exActive 10).findUser "u1" =
      some { id := "u1", balance := 10, status := .active } := by
    simp [exActive, DbState.findUser]
  have hfresh : ∀ k ∈ ["k1", "k2"], (exActive 10).findTx k = none := by
    intro k _
    simp [exActive, DbState.findTx]
  have hnodup : (["k1", "k2"] : List String).Nodup := by simp
  have h2dec : hasAtMost2Decimals 3 = true := by
    norm_num [hasAtMost2Decimals, Rat.den]
  have hbound : ((["k1", "k2"] : List String).length : ℚ) * 3 ≤ (10 : ℚ) :=
    by norm_num
  ⟨hu, hfresh, hnodup, by norm_num, h2dec, hbound,
    concurrent_debits_serialize ["k1", "k2"] (exActive 10) _ hu hfresh
      hnodup (by norm_num) h2dec hbound⟩

/-- Two stored transactions with the same `processed_at` timestamp and
different ids. -/
def exRowA : TxRow :=
  { id := 1, userId := "u1", transactionId := "t1", type := .credit,
    amount := 10, balanceBefore := 0, balanceAfter := 10,
    description := none, metadata := none, processedAt := 5 }

/-- See `exRowA`: same `processed_at`, different id. -/
def exRowB : TxRow :=
  { id := 2, userId := "u1", transactionId := "t2", type := .credit,
    amount := 20, balanceBefore := 10, balanceAfter := 30,
    description := none, metadata := none, processedAt := 5 }

/-- Counterexample to C10: `getTransactions` builds a single-key `ORDER BY`
clause that never mentions `id`, and for two rows tied on the requested
sort key (equal `processed_at`, different ids) both relative orders satisfy
that clause — the result order is not determined by an id tie-break, so
pagination over ties is not stable. -/
theorem getTransactions_no_id_tiebreak :
    getTransactionsOrderBy "processedAt" "desc" =
      [("processed_at", "DESC")] ∧
    (∀ p ∈ getTransactionsOrderBy "processedAt" "desc", p.1 ≠ "id") ∧
    exRowA.id ≠ exRowB.id ∧
    sortKeyValue "processed_at" exRowA =
      sortKeyValue "processed_at" exRowB ∧
    satisfiesOrderBy (getTransactionsOrderBy "processedAt" "desc")
      [exRowA, exRowB] ∧
    satisfiesOrderBy (getTransactionsOrderBy "processedAt" "desc")
      [exRowB, exRowA] := by
  have hclause : getTransactionsOrderBy "processedAt" "desc" =
      [("processed_at", "DESC")] := by decide
  have hkey : sortKeyValue "processed_at" exRowA =
      sortKeyValue "processed_at" exRowB := by
    simp [sortKeyValue, exRowA, exRowB]
  refine ⟨hclause, ?_, by simp [exRowA, exRowB], hkey, ?_, ?_⟩
  · rw [hclause]
    simp
  · rw [hclause]
    unfold satisfiesOrderBy
    rw [List.chain'_pair]
    unfold rowPairOrdered
    rw [if_pos hkey]
    rfl
  · rw [hclause]
    unfold satisfiesOrderBy
    rw [List.chain'_pair]
    unfold rowPairOrdered
    rw [if_pos hkey.symm]
    rfl

/-- C10 as amended: `getTransactions` orders only by the requested sort
key (snake-cased, with the requested direction); no secondary `id`
tie-break is applied, so any two rows tied on the primary key may appear
in either order and the ordering over ties is unspecified. -/
theorem getTransactions_orders_by_primary_key_only
    {sortBy sortOrder : String} {a b : TxRow}
    (h : sortKeyValue (toSnakeCase sortBy) a =
      sortKeyValue (toSnakeCase sortBy) b) :
    getTransactionsOrderBy sortBy sortOrder =
      [(toSnakeCase sortBy, strToUpper sortOrder)] ∧
    satisfiesOrderBy (getTransactionsOrderBy sortBy sortOrder) [a, b] ∧
    satisfiesOrderBy (getTransactionsOrderBy sortBy sortOrder) [b, a] := by
  refine ⟨rfl, ?_, ?_⟩
  · unfold satisfiesOrderBy getTransactionsOrderBy
    rw [List.chain'_pair]
    unfold rowPairOrdered
    rw [if_pos h]
    rfl
  · unfold satisfiesOrderBy getTransactionsOrderBy
    rw [List.chain'_pair]
    unfold rowPairOrdered
    rw [if_pos h.symm]
    rfl

/-- Witness for amended C10: the tied pair `exRowA`, `exRowB` sorted by
`processedAt desc` is accepted in both orders. -/
theorem getTransactions_orders_by_primary_key_only_witness :
    sortKeyValue (toSnakeCase "processedAt") exRowA =
      sortKeyValue (toSnakeCase "processedAt") exRowB ∧
    (getTransactionsOrderBy "processedAt" "desc" =
      [(toSnakeCase "processedAt", strToUpper "desc")] ∧
    satisfiesOrderBy (getTransactionsOrderBy "processedAt" "desc")
      [exRowA, exRowB] ∧
    satisfiesOrderBy (getTransactionsOrderBy "processedAt" "desc")
      [exRowB, exRowA]) :=
  have h : sortKeyValue (toSnakeCase "processedAt") exRowA =
      sortKeyValue (toSnakeCase "processedAt") exRowB := by
    simp [sortKeyValue, toSnakeCase, exRowA, exRowB]
  ⟨h, getTransactions_orders_by_primary_key_only h⟩

end Wallet
